import Mathlib

/-!
Verification of the vote-reconciliation and placeholder-accounting engine of
the telegram-ballot-guard repository.

The definitions below are a shallow embedding of the JavaScript source:
* the Poll / PollOption / Mention records mirror the mongoose schema in
  `src/models/Poll.js`;
* `handlePollUpdate` embeds the reconciliation body of the `bot.on` handler
  for poll snapshot pushes;
* `handlePollAnswer` embeds the reconciliation body of the `bot.on` handler
  for named vote events;
* `updateTrackedPoll` embeds the per-poll reconciliation of
  `updateTrackedPolls` in `src/utils/pollingService.js`;
* `refreshPoll` embeds the reconciliation body of the `refreshpoll` command
  handler;
* `resolvePoll` embeds the multi-stage poll lookup used by the vote-event
  handler.

JavaScript numbers that hold Telegram ids and vote counts are modelled as
`Int`; lists keep the order in which the code builds them.
-/

/-- One poll option, mirroring `PollOptionSchema`: the option text, the list
of voter ids (positive = named Telegram user, negative = anonymous
placeholder), and the `existingVotes` baseline counter. -/
structure PollOption where
  text : String
  voterIds : List Int
  existingVotes : Int
deriving DecidableEq

/-- One mention-roster entry, mirroring `MentionSchema`. `userId` is
nullable until the user is identified. -/
structure Mention where
  userId : Option Int
  username : Option String
  firstName : Option String
  lastName : Option String
  voted : Bool
deriving DecidableEq

/-- A poll record, mirroring `PollSchema` (the fields the reconciliation
engine reads or writes). `updatedAt` is an abstract timestamp used by the
lookup resolver's most-recently-updated disambiguation. -/
structure Poll where
  pollId : String
  originalPollId : Option String
  chatId : Int
  messageId : Int
  options : List PollOption
  mentions : List Mention
  isMultipleChoice : Bool
  isClosed : Bool
  isTracked : Bool
  total_voter_count : Int
  updatedAt : Int
deriving DecidableEq

/-- The user object carried by a Telegram `poll_answer` event. -/
structure VoteUser where
  id : Int
  username : Option String
  firstName : Option String
  lastName : Option String
deriving DecidableEq

/-- `Math.min` over a list of integers, with a default for the empty list
(the code only calls it on nonempty lists). -/
def minList : List Int → Int
  | [] => 0
  | [x] => x
  | x :: y :: xs => min x (minList (y :: xs))

/-- `Array.from({length: count}, (_, idx) => last - idx)`: `count`
consecutive descending integers starting at `last`. -/
def allocFrom (last : Int) (count : Nat) : List Int :=
  (List.range count).map (fun idx => last - (idx : Int))

/-- Per-option reconciliation of the poll snapshot push handler
(`bot.on` for poll updates): when the observed `voter_count` exceeds
`existingVotes`, append that many fresh placeholder ids (filter the negative
ids, start at their minimum minus one, or at `-1000000*(i+1) - 1` when there
are none) and set `existingVotes` to the observed count.  A count that did
not increase leaves the option untouched. -/
def pollEventOption (i : Nat) (o : PollOption) (vc : Int) : PollOption :=
  if o.existingVotes < vc then
    let negativeIds := o.voterIds.filter (fun id => id < 0)
    let baseId : Int := -1000000 * ((i : Int) + 1)
    let lastPlaceholderId :=
      if negativeIds.isEmpty then baseId - 1 else minList negativeIds - 1
    let newVoterIds := allocFrom lastPlaceholderId (vc - o.existingVotes).toNat
    { o with voterIds := o.voterIds ++ newVoterIds, existingVotes := vc }
  else o

/-- Per-option reconciliation of `updateTrackedPolls` in
`pollingService.js`: same increase-only placeholder allocation, but with a
sanity check rejecting counts outside `[0, 10000]` and with the negative-id
filter additionally restricted to ids `≥ baseId`. -/
def pollingOption (i : Nat) (o : PollOption) (vc : Int) : PollOption :=
  if vc < 0 ∨ 10000 < vc then o
  else if o.existingVotes < vc then
    let baseId : Int := -1000000 * ((i : Int) + 1)
    let negativeIds := o.voterIds.filter (fun id => id < 0 ∧ baseId ≤ id)
    let lowestExistingId :=
      if negativeIds.isEmpty then baseId - 1 else minList negativeIds - 1
    let placeholderIds := allocFrom lowestExistingId (vc - o.existingVotes).toNat
    { o with voterIds := o.voterIds ++ placeholderIds, existingVotes := vc }
  else o

/-- Per-option reconciliation of the `refreshpoll` command handler: an
increase appends placeholders exactly as the snapshot push does; a decrease
sorts the negative ids ascending, takes the first `|delta|` of them as the
ids to remove, and filters them out; either way `existingVotes` becomes the
observed count.  An unchanged count is a no-op. -/
def refreshOption (i : Nat) (o : PollOption) (vc : Int) : PollOption :=
  if vc = o.existingVotes then o
  else if o.existingVotes < vc then
    let negativeIds := o.voterIds.filter (fun id => id < 0)
    let baseId : Int := -1000000 * ((i : Int) + 1)
    let lastPlaceholderId :=
      if negativeIds.isEmpty then baseId - 1 else minList negativeIds - 1
    let newVoterIds := allocFrom lastPlaceholderId (vc - o.existingVotes).toNat
    { o with voterIds := o.voterIds ++ newVoterIds, existingVotes := vc }
  else
    let placeholderIds :=
      List.insertionSort (· ≤ ·) (o.voterIds.filter (fun id => id < 0))
    let idsToRemove := placeholderIds.take (o.existingVotes - vc).toNat
    { o with voterIds := o.voterIds.filter (fun id => decide (id ∉ idsToRemove)),
             existingVotes := vc }

/-- The `for (let i = 0; i < observed.length && i < options.length; i++)`
loops: apply the per-option update `f` at each index where the observation
carries a numeric `voter_count` (`some vc`), leaving options beyond the
observation, or with a non-numeric entry, unchanged. -/
def updateOptionsFrom (f : Nat → PollOption → Int → PollOption) :
    Nat → List PollOption → List (Option Int) → List PollOption
  | _, [], _ => []
  | _, os, [] => os
  | i, o :: os, vc :: vcs =>
      (match vc with
       | some v => f i o v
       | none => o) :: updateOptionsFrom f (i + 1) os vcs

/-- The poll snapshot push handler (`bot.on` for poll updates), after the
record has been resolved: a closed poll is left untouched; otherwise the
poll-level `total_voter_count` is overwritten with the observed total and,
only when the poll is tracked, each option is reconciled by
`pollEventOption`. -/
def handlePollUpdate (p : Poll) (obsTotal : Int) (obsOptions : List (Option Int)) :
    Poll :=
  if p.isClosed then p
  else
    let p1 := { p with total_voter_count := obsTotal }
    if p1.isTracked then
      { p1 with options := updateOptionsFrom pollEventOption 0 p1.options obsOptions }
    else p1

/-- The per-poll reconciliation of `updateTrackedPolls`: a non-numeric or
unchanged observed total short-circuits to a no-op; otherwise the total is
overwritten and every option is reconciled by `pollingOption`. -/
def updateTrackedPoll (p : Poll) (obsTotal : Option Int)
    (obsOptions : List (Option Int)) : Poll :=
  match obsTotal with
  | none => p
  | some t =>
      if t = p.total_voter_count then p
      else
        let p1 := { p with total_voter_count := t }
        { p1 with options := updateOptionsFrom pollingOption 0 p1.options obsOptions }

/-- The `refreshpoll` command handler, after the poll has been found by its
`(chatId, messageId)` key: a poll that is not tracked is rejected untouched;
otherwise — with no check of `isClosed` — the total is overwritten and every
option is reconciled by `refreshOption`. -/
def refreshPoll (p : Poll) (obsTotal : Int) (obsOptions : List (Option Int)) :
    Poll :=
  if ¬ p.isTracked then p
  else
    let p1 := { p with total_voter_count := obsTotal }
    { p1 with options := updateOptionsFrom refreshOption 0 p1.options obsOptions }

/-- The scheduler's poll selection: `Poll.find({isTracked: true, isClosed:
false}).sort({updatedAt: 1}).limit(50)`. -/
def selectTrackedPolls (db : List Poll) : List Poll :=
  ((db.filter (fun p => p.isTracked ∧ ¬ p.isClosed)).insertionSort
      (fun a b => a.updatedAt ≤ b.updatedAt)).take 50

/-- Remove a user's id from an option's voter list: the handler's filter
keeps every id other than `uid` (negative placeholder ids and other users'
ids pass the filter unchanged). -/
def removeUser (uid : Int) (o : PollOption) : PollOption :=
  { o with voterIds := o.voterIds.filter (fun id => id ≠ uid) }

/-- The `if (!poll.isMultipleChoice)` clause run on every loop iteration:
on a non-multiple-choice poll, remove the user's id from every option. -/
def clearUserIfSingle (p : Poll) (uid : Int) : Poll :=
  if ¬ p.isMultipleChoice then
    { p with options := p.options.map (removeUser uid) }
  else p

/-- The add-if-absent step: if the user is not already on option `j`, the
id is appended and the option's `existingVotes` is raised to the count of
positive ids when that count exceeds it. -/
def pushVote (p1 : Poll) (uid : Int) (j : Nat) : Poll :=
  let o := p1.options.getD j ⟨"", [], 0⟩
  if uid ∈ o.voterIds then p1
  else
    let o1 := { o with voterIds := o.voterIds ++ [uid] }
    let realVoterCount := (o1.voterIds.filter (fun id => 0 < id)).length
    let o2 :=
      if o1.existingVotes < (realVoterCount : Int) then
        { o1 with existingVotes := (realVoterCount : Int) }
      else o1
    { p1 with options := p1.options.set j o2 }

/-- One iteration of the vote-recording loop of the `poll_answer` handler,
for selected option index `j`: out-of-range indices are skipped; on a
non-multiple-choice poll the user's id is first removed from every option;
then the id is added if absent. -/
def addVoteAt (p : Poll) (uid : Int) (j : Nat) : Poll :=
  if j < p.options.length then pushVote (clearUserIfSingle p uid) uid j
  else p

/-- The retraction branch of the `poll_answer` handler, per option: remove
the user's id; if the user had voted here and the remaining count of
positive ids is below `existingVotes`, lower `existingVotes` to that
count. -/
def retractOption (uid : Int) (o : PollOption) : PollOption :=
  let hadVote := uid ∈ o.voterIds
  let o1 := { o with voterIds := o.voterIds.filter (fun id => id ≠ uid) }
  if hadVote then
    let realVoterCount := (o1.voterIds.filter (fun id => 0 < id)).length
    if (realVoterCount : Int) < o1.existingVotes then
      { o1 with existingVotes := (realVoterCount : Int) }
    else o1
  else o1

/-- The `findIndex` predicate on the mention roster: a mention matches the
voting user when its `userId` equals the user's id, or when it carries a
non-empty username equal to the user's username. -/
def mentionMatches (m : Mention) (u : VoteUser) : Bool :=
  m.userId = some u.id ∨
    (∃ s, m.username = some s ∧ s ≠ "" ∧ u.username = some s)

/-- Update the first matching mention: backfill `userId` and the name
fields when the mention lacked a `userId`, and set `voted` to whether the
event's selected-index list is non-empty. -/
def updateMentions (ms : List Mention) (u : VoteUser) (votedNow : Bool) :
    List Mention :=
  match ms with
  | [] => []
  | m :: rest =>
      if mentionMatches m u then
        let m1 :=
          if m.userId = none then
            { m with userId := some u.id, firstName := u.firstName,
                     lastName := u.lastName }
          else m
        { m1 with voted := votedNow } :: rest
      else m :: updateMentions rest u votedNow

/-- The unique-voter accumulator of the total recompute: fold every voter id
of every option into an insertion-ordered duplicate-free list of the
positive ids (`uniqueVoters` set in the handler). -/
def insertPositives (s : List Int) (ids : List Int) : List Int :=
  ids.foldl (fun s id => if 0 < id ∧ id ∉ s then s ++ [id] else s) s

/-- The `total_voter_count` recomputation of the `poll_answer` handler: the
number of distinct positive ids across all options plus the sum over
options of the count of negative ids. -/
def recomputeTotal (options : List PollOption) : Nat :=
  (options.foldl (fun s o => insertPositives s o.voterIds) []).length +
    (options.map (fun o => (o.voterIds.filter (fun id => id < 0)).length)).sum

/-- The `poll_answer` handler, after the poll record has been resolved: a
closed poll is left untouched; a non-empty selected-index list records the
vote via `addVoteAt` at each index, an empty list retracts via
`retractOption` on every option; then the mention roster is updated and
`total_voter_count` is recomputed from the ledger. -/
def handlePollAnswer (p : Poll) (u : VoteUser) (optionIds : List Nat) : Poll :=
  if p.isClosed then p
  else
    let p1 :=
      if optionIds.isEmpty then
        { p with options := p.options.map (retractOption u.id) }
      else optionIds.foldl (fun q j => addVoteAt q u.id j) p
    let p2 := { p1 with mentions := updateMentions p1.mentions u (¬ optionIds.isEmpty) }
    { p2 with total_voter_count := (recomputeTotal p2.options : Int) }

/-- Does the character sequence `needle` occur at the head of `hay`? -/
def matchAt : List Char → List Char → Bool
  | [], _ => true
  | _ :: _, [] => false
  | c :: cs, d :: ds => c = d && matchAt cs ds

/-- Does the character sequence `needle` occur anywhere inside `hay`? -/
def containsSeq (needle : List Char) : List Char → Bool
  | [] => needle.isEmpty
  | c :: cs => matchAt needle (c :: cs) || containsSeq needle cs

/-- Case-insensitive substring test, embedding the `$regex` match with the
`i` flag used by the prefix-stage poll search. -/
def ciContains (hay frag : String) : Bool :=
  containsSeq (frag.toList.map Char.toLower) (hay.toList.map Char.toLower)

/-- Does the poll's `pollId` or `originalPollId` match the inbound id's
10-character fragment (case-insensitive substring, per the regex)? -/
def fragMatches (p : Poll) (frag : String) : Bool :=
  ciContains p.pollId frag ||
    (match p.originalPollId with
     | some s => ciContains s frag
     | none => false)

/-- `sort((a, b) => b.updatedAt - a.updatedAt)[0]`: the first element of the
list attaining the maximal `updatedAt` (the JavaScript sort is stable, so
among ties the earliest-listed poll wins). -/
def maxByUpdated : List Poll → Option Poll
  | [] => none
  | p :: ps =>
      match maxByUpdated ps with
      | none => some p
      | some q => if p.updatedAt < q.updatedAt then some q else some p

/-- The tail of the candidate scan: `length === 1` uses the single
candidate, `length > 1` takes the most recently updated one, and zero
candidates end in NotFound (`none`). -/
def pickCandidate (l : List Poll) : Option Poll :=
  if l.length = 1 then l.head?
  else if 1 < l.length then maxByUpdated l
  else none

/-- Stage 3 of the poll lookup: filter the open polls by the fragment match
of the first 10 characters of the inbound id, fall back to all open polls
when that catches nothing, and pick the candidate. -/
def resolveByFrag (db : List Poll) (pid : String) : Option Poll :=
  pickCandidate
    (if ((db.filter (fun p => ¬ p.isClosed)).filter
          (fun p => fragMatches p (pid.toList.take 10).asString)).isEmpty then
        db.filter (fun p => ¬ p.isClosed)
      else
        (db.filter (fun p => ¬ p.isClosed)).filter
          (fun p => fragMatches p (pid.toList.take 10).asString))

/-- The poll lookup of the `poll_answer` handler: exact match on `pollId`,
then exact match on `originalPollId`, then the fragment stage
`resolveByFrag`. -/
def resolvePoll (db : List Poll) (pid : String) : Option Poll :=
  match db.find? (fun p => p.pollId = pid) with
  | some p => some p
  | none =>
      match db.find? (fun p => p.originalPollId = some pid) with
      | some p => some p
      | none => resolveByFrag db pid

/-- Unfolding `insertPositives` over a cons cell. -/
theorem insertPositives_cons (s : List Int) (id : Int) (rest : List Int) :
    insertPositives s (id :: rest) =
      insertPositives (if 0 < id ∧ id ∉ s then s ++ [id] else s) rest := rfl

/-- Membership in the unique-voter accumulator: an id is collected exactly
when it was already collected or is a positive id of the input. -/
theorem mem_insertPositives (ids : List Int) : ∀ (s : List Int) (a : Int),
    a ∈ insertPositives s ids ↔ a ∈ s ∨ (0 < a ∧ a ∈ ids) := by
  induction ids with
  | nil => intro s a; simp [insertPositives]
  | cons id rest ih =>
      intro s a
      rw [insertPositives_cons, ih]
      by_cases h : 0 < id ∧ id ∉ s
      · simp only [if_pos h, List.mem_append, List.mem_singleton, List.mem_cons,
          List.not_mem_nil, or_false]
        constructor
        · rintro (⟨hs | he⟩ | ⟨hp, hr⟩)
          · exact Or.inl hs
          · exact Or.inr ⟨he ▸ h.1, Or.inl he⟩
          · exact Or.inr ⟨hp, Or.inr hr⟩
        · rintro (hs | ⟨hp, he | hr⟩)
          · exact Or.inl (Or.inl hs)
          · exact Or.inl (Or.inr he)
          · exact Or.inr ⟨hp, hr⟩
      · simp only [if_neg h, List.mem_cons]
        push_neg at h
        constructor
        · rintro (hs | ⟨hp, hr⟩)
          · exact Or.inl hs
          · exact Or.inr ⟨hp, Or.inr hr⟩
        · rintro (hs | ⟨hp, he | hr⟩)
          · exact Or.inl hs
          · exact Or.inl (he ▸ h (he ▸ hp))
          · exact Or.inr ⟨hp, hr⟩

/-- The unique-voter accumulator never stores a duplicate. -/
theorem nodup_insertPositives (ids : List Int) :
    ∀ s : List Int, s.Nodup → (insertPositives s ids).Nodup := by
  induction ids with
  | nil => intro s hs; simpa [insertPositives] using hs
  | cons id rest ih =>
      intro s hs
      rw [insertPositives_cons]
      by_cases h : 0 < id ∧ id ∉ s
      · refine ih _ ?_
        rw [if_pos h]
        simp [List.nodup_append, hs, h.2]
      · rw [if_neg h]; exact ih s hs

/-- Folding the accumulator over an appended list is sequential folding. -/
theorem insertPositives_append (s xs ys : List Int) :
    insertPositives s (xs ++ ys) = insertPositives (insertPositives s xs) ys := by
  unfold insertPositives
  rw [List.foldl_append]

/-- The per-option fold of the total recompute equals one accumulator pass
over the concatenation of all options' voter lists. -/
theorem foldl_insertPositives (options : List PollOption) : ∀ s : List Int,
    options.foldl (fun s o => insertPositives s o.voterIds) s =
      insertPositives s (options.flatMap (fun o => o.voterIds)) := by
  induction options with
  | nil => intro s; simp [insertPositives]
  | cons o os ih =>
      intro s
      simp only [List.foldl_cons, List.flatMap_cons, insertPositives_append]
      exact ih _

/-- The spec's formula for the Total-Count Reconciler, written from the
spec's words: the number of distinct positive ids across all options plus
the sum over options of the count of negative ids. -/
def specTotal (options : List PollOption) : Nat :=
  ((options.flatMap (fun o => o.voterIds)).filter (fun id => 0 < id)).toFinset.card +
    (options.map (fun o => (o.voterIds.filter (fun id => id < 0)).length)).sum

/-- C5: for every ledger state, the recomputed `total_voter_count` equals
the number of distinct positive ids across all options plus the sum over
options of the counts of negative ids; on option A `[10, 20, -1000001]` and
option B `[20, -2000001, -2000002]` it yields 5. -/
theorem C5_recompute_total_correct :
    (∀ options : List PollOption, recomputeTotal options = specTotal options) ∧
      recomputeTotal [⟨"A", [10, 20, -1000001], 0⟩, ⟨"B", [20, -2000001, -2000002], 0⟩] = 5 := by
  constructor
  · intro options
    unfold recomputeTotal specTotal
    congr 1
    rw [foldl_insertPositives]
    rw [← List.toFinset_card_of_nodup (nodup_insertPositives _ [] List.nodup_nil)]
    congr 1
    ext a
    simp only [List.mem_toFinset, mem_insertPositives, List.not_mem_nil, false_or,
      List.mem_filter, decide_eq_true_eq]
    tauto
  · decide

/-- C10: a snapshot push on an open poll whose `isTracked` flag is false
performs no per-option reconciliation, yet overwrites the poll-level
`total_voter_count` with the observed total: the persisted record is the
input record with only `total_voter_count` replaced. -/
theorem C10_untracked_push_overwrites_total_only (p : Poll) (obsTotal : Int)
    (obsOptions : List (Option Int)) (hC : p.isClosed = false)
    (hT : p.isTracked = false) :
    handlePollUpdate p obsTotal obsOptions = { p with total_voter_count := obsTotal } := by
  simp [handlePollUpdate, hC, hT]

/-- Witness for C10 at a concrete open untracked poll. -/
theorem C10_untracked_push_overwrites_total_only_witness :
    (⟨"p1", none, 1, 2, [⟨"A", [10], 1⟩, ⟨"B", [], 0⟩], [], false, false, false, 3, 0⟩ :
        Poll).isClosed = false ∧
    (⟨"p1", none, 1, 2, [⟨"A", [10], 1⟩, ⟨"B", [], 0⟩], [], false, false, false, 3, 0⟩ :
        Poll).isTracked = false ∧
    handlePollUpdate
        ⟨"p1", none, 1, 2, [⟨"A", [10], 1⟩, ⟨"B", [], 0⟩], [], false, false, false, 3, 0⟩
        7 [some 5, some 2] =
      ⟨"p1", none, 1, 2, [⟨"A", [10], 1⟩, ⟨"B", [], 0⟩], [], false, false, false, 7, 0⟩ :=
  ⟨rfl, rfl,
    C10_untracked_push_overwrites_total_only
      ⟨"p1", none, 1, 2, [⟨"A", [10], 1⟩, ⟨"B", [], 0⟩], [], false, false, false, 3, 0⟩
      7 [some 5, some 2] rfl rfl⟩

/-- C3 (amended): on the snapshot push path and the scheduler path, an
observed per-option `voter_count` that did not increase — in particular any
decrease — leaves the option entirely unchanged; only the manual refresh
command reconciles decreases. -/
theorem C3_aggregate_non_increase_is_noop (i : Nat) (o : PollOption) (vc : Int)
    (h : vc ≤ o.existingVotes) :
    pollEventOption i o vc = o ∧ pollingOption i o vc = o := by
  constructor
  · unfold pollEventOption
    rw [if_neg (not_lt.mpr h)]
  · unfold pollingOption
    by_cases h1 : vc < 0 ∨ 10000 < vc
    · rw [if_pos h1]
    · rw [if_neg h1, if_neg (not_lt.mpr h)]

/-- Witness for C3's amended statement at a concrete decreased count. -/
theorem C3_aggregate_non_increase_is_noop_witness :
    (1 : Int) ≤ (⟨"A", [-1000001, -1000002, -1000003], 3⟩ : PollOption).existingVotes ∧
    pollEventOption 0 ⟨"A", [-1000001, -1000002, -1000003], 3⟩ 1 =
      ⟨"A", [-1000001, -1000002, -1000003], 3⟩ ∧
    pollingOption 0 ⟨"A", [-1000001, -1000002, -1000003], 3⟩ 1 =
      ⟨"A", [-1000001, -1000002, -1000003], 3⟩ :=
  ⟨by decide,
    (C3_aggregate_non_increase_is_noop 0 ⟨"A", [-1000001, -1000002, -1000003], 3⟩ 1
      (by decide)).1,
    (C3_aggregate_non_increase_is_noop 0 ⟨"A", [-1000001, -1000002, -1000003], 3⟩ 1
      (by decide)).2⟩

/-- Counterexample to C3 as stated: on an open tracked poll, both the
snapshot push handler and the scheduler leave an option whose observed
count dropped from 3 to 1 byte-identical — no placeholder is removed and
`existingVotes` stays 3 instead of being set to 1. -/
theorem C3_counterexample_decrease_not_reconciled :
    (handlePollUpdate
        ⟨"p1", none, 1, 2, [⟨"A", [-1000001, -1000002, -1000003], 3⟩, ⟨"B", [], 0⟩],
          [], false, false, true, 3, 0⟩ 1 [some 1, some 0]).options =
      [⟨"A", [-1000001, -1000002, -1000003], 3⟩, ⟨"B", [], 0⟩] ∧
    (updateTrackedPoll
        ⟨"p1", none, 1, 2, [⟨"A", [-1000001, -1000002, -1000003], 3⟩, ⟨"B", [], 0⟩],
          [], false, false, true, 3, 0⟩ (some 1) [some 1, some 0]).options =
      [⟨"A", [-1000001, -1000002, -1000003], 3⟩, ⟨"B", [], 0⟩] := by
  decide

/-- C6: evaluation of the scheduler's allocator at the failing input.  The
first aggregate increase on empty option 0 allocates `[-1000001, -1000002,
-1000003]` as the claim states, but a second increase to 5 re-allocates
`-1000001` and `-1000002`: the range filter `id < 0 && id >= baseId`
excludes every previously allocated id (they all lie below `baseId`), so the
batch collides with the option's current voterIds and `-1000001` now occurs
twice. -/
theorem C6_scheduler_reallocates_placeholder_ids :
    (pollingOption 0 ⟨"A", [], 0⟩ 3).voterIds = [-1000001, -1000002, -1000003] ∧
    (pollingOption 0 ⟨"A", [], 0⟩ 3).existingVotes = 3 ∧
    (pollingOption 0 (pollingOption 0 ⟨"A", [], 0⟩ 3) 5).voterIds =
      [-1000001, -1000002, -1000003, -1000001, -1000002] ∧
    (pollingOption 0 (pollingOption 0 ⟨"A", [], 0⟩ 3) 5).voterIds.count (-1000001) = 2 := by
  decide

/-- C2 (amended): once a poll is closed, the snapshot push handler and the
named-vote handler leave it byte-identical, and the scheduler never selects
it; the manual refresh command is the one path without a closed check. -/
theorem C2_closed_poll_immutable_except_manual_refresh (p : Poll)
    (h : p.isClosed = true) :
    (∀ (obsTotal : Int) (obsOptions : List (Option Int)),
        handlePollUpdate p obsTotal obsOptions = p) ∧
    (∀ (u : VoteUser) (optionIds : List Nat), handlePollAnswer p u optionIds = p) ∧
    (∀ db : List Poll, p ∉ selectTrackedPolls db) := by
  refine ⟨?_, ?_, ?_⟩
  · intro obsTotal obsOptions
    simp [handlePollUpdate, h]
  · intro u optionIds
    simp [handlePollAnswer, h]
  · intro db hmem
    unfold selectTrackedPolls at hmem
    have h1 := List.mem_of_mem_take hmem
    have h2 := (List.perm_insertionSort
      (fun a b : Poll => a.updatedAt ≤ b.updatedAt) _).mem_iff.mp h1
    have h3 := (List.mem_filter.mp h2).2
    simp only [decide_eq_true_eq, h] at h3
    exact h3.2 trivial

/-- Witness for C2's amended statement at a concrete closed poll. -/
theorem C2_closed_poll_immutable_except_manual_refresh_witness :
    (⟨"p1", none, 1, 2, [⟨"A", [10], 1⟩, ⟨"B", [], 0⟩], [], false, true, true, 1, 0⟩ :
        Poll).isClosed = true ∧
    handlePollUpdate
        ⟨"p1", none, 1, 2, [⟨"A", [10], 1⟩, ⟨"B", [], 0⟩], [], false, true, true, 1, 0⟩
        9 [some 4, some 4] =
      ⟨"p1", none, 1, 2, [⟨"A", [10], 1⟩, ⟨"B", [], 0⟩], [], false, true, true, 1, 0⟩ ∧
    handlePollAnswer
        ⟨"p1", none, 1, 2, [⟨"A", [10], 1⟩, ⟨"B", [], 0⟩], [], false, true, true, 1, 0⟩
        ⟨555, none, none, none⟩ [0] =
      ⟨"p1", none, 1, 2, [⟨"A", [10], 1⟩, ⟨"B", [], 0⟩], [], false, true, true, 1, 0⟩ ∧
    (⟨"p1", none, 1, 2, [⟨"A", [10], 1⟩, ⟨"B", [], 0⟩], [], false, true, true, 1, 0⟩ :
        Poll) ∉ selectTrackedPolls
      [⟨"p1", none, 1, 2, [⟨"A", [10], 1⟩, ⟨"B", [], 0⟩], [], false, true, true, 1, 0⟩] :=
  ⟨rfl,
    (C2_closed_poll_immutable_except_manual_refresh _ rfl).1 9 [some 4, some 4],
    (C2_closed_poll_immutable_except_manual_refresh _ rfl).2.1 ⟨555, none, none, none⟩ [0],
    (C2_closed_poll_immutable_except_manual_refresh _ rfl).2.2 _⟩

/-- Counterexample to C2 as stated: the manual refresh command carries no
closed check, so a closed tracked poll is mutated — its total is overwritten
and two of option 0's placeholders are removed. -/
theorem C2_counterexample_refresh_mutates_closed_poll :
    (⟨"p1", none, 1, 2, [⟨"A", [-1000001, -1000002, -1000003], 3⟩, ⟨"B", [], 0⟩],
        [], false, true, true, 3, 0⟩ : Poll).isClosed = true ∧
    (refreshPoll
        ⟨"p1", none, 1, 2, [⟨"A", [-1000001, -1000002, -1000003], 3⟩, ⟨"B", [], 0⟩],
          [], false, true, true, 3, 0⟩ 1 [some 1, some 0]).total_voter_count = 1 ∧
    ((refreshPoll
        ⟨"p1", none, 1, 2, [⟨"A", [-1000001, -1000002, -1000003], 3⟩, ⟨"B", [], 0⟩],
          [], false, true, true, 3, 0⟩ 1 [some 1, some 0]).options.getD 0
        ⟨"", [], 0⟩).voterIds = [-1000001] ∧
    refreshPoll
        ⟨"p1", none, 1, 2, [⟨"A", [-1000001, -1000002, -1000003], 3⟩, ⟨"B", [], 0⟩],
          [], false, true, true, 3, 0⟩ 1 [some 1, some 0] ≠
      ⟨"p1", none, 1, 2, [⟨"A", [-1000001, -1000002, -1000003], 3⟩, ⟨"B", [], 0⟩],
        [], false, true, true, 3, 0⟩ := by
  decide

/-- The most-recently-updated disambiguation always yields a poll on a
nonempty candidate list. -/
theorem maxByUpdated_isSome (p : Poll) (ps : List Poll) :
    (maxByUpdated (p :: ps)).isSome = true := by
  cases hm : maxByUpdated ps <;> simp [maxByUpdated, hm]
  split <;> simp

/-- On a nonempty candidate list, the candidate pick never returns
NotFound. -/
theorem pickCandidate_ne_none (l : List Poll) (h : l ≠ []) :
    pickCandidate l ≠ none := by
  match l, h with
  | [a], _ => simp [pickCandidate]
  | a :: b :: bs, _ =>
      unfold pickCandidate
      rw [if_neg (by simp), if_pos (by simp)]
      have := maxByUpdated_isSome a (b :: bs)
      intro hn
      rw [hn] at this
      simp at this

/-- With both exact stages exhausted, the resolver is the fragment
stage. -/
theorem resolvePoll_eq_resolveByFrag (db : List Poll) (pid : String)
    (h1 : db.find? (fun p => p.pollId = pid) = none)
    (h2 : db.find? (fun p => p.originalPollId = some pid) = none) :
    resolvePoll db pid = resolveByFrag db pid := by
  unfold resolvePoll
  rw [h1, h2]

/-- C7 (amended): when the inbound id matches no stored `pollId` and no
stored `originalPollId` exactly, the resolver returns NotFound exactly when
there are no open polls at all — a 10-character fragment that matches zero
open polls does not yield NotFound but falls back to scanning every open
poll; and when the fragment matches exactly one open poll, that poll is
returned. -/
theorem C7_lookup_fallback (db : List Poll) (pid : String)
    (h1 : db.find? (fun p => p.pollId = pid) = none)
    (h2 : db.find? (fun p => p.originalPollId = some pid) = none) :
    (resolvePoll db pid = none ↔ db.filter (fun p => ¬ p.isClosed) = []) ∧
    (∀ q : Poll,
      (db.filter (fun p => ¬ p.isClosed)).filter
          (fun p => fragMatches p (pid.toList.take 10).asString) = [q] →
      resolvePoll db pid = some q) := by
  rw [resolvePoll_eq_resolveByFrag db pid h1 h2]
  constructor
  · constructor
    · intro hres
      unfold resolveByFrag at hres
      by_cases hop : db.filter (fun p => ¬ p.isClosed) = []
      · exact hop
      · exfalso
        refine pickCandidate_ne_none _ ?_ hres
        split
        · exact hop
        · rename_i hne
          simpa [List.isEmpty_iff] using hne
    · intro hop
      unfold resolveByFrag
      rw [hop]
      rfl
  · intro q hq
    unfold resolveByFrag
    rw [hq]
    rw [if_neg (by simp)]
    simp [pickCandidate]

/-- Witness for C7's amended statement: an inbound id with no exact match
whose 10-character fragment matches exactly one open poll resolves to that
poll, and with an all-closed store the resolver returns NotFound. -/
theorem C7_lookup_fallback_witness :
    [(⟨"abcdefghijXYZ", none, 1, 2, [⟨"A", [], 0⟩, ⟨"B", [], 0⟩], [], false, false,
        true, 0, 5⟩ : Poll)].find?
      (fun p => p.pollId = "abcdefghij-other") = none ∧
    [(⟨"abcdefghijXYZ", none, 1, 2, [⟨"A", [], 0⟩, ⟨"B", [], 0⟩], [], false, false,
        true, 0, 5⟩ : Poll)].find?
      (fun p => p.originalPollId = some "abcdefghij-other") = none ∧
    resolvePoll
      [⟨"abcdefghijXYZ", none, 1, 2, [⟨"A", [], 0⟩, ⟨"B", [], 0⟩], [], false, false,
          true, 0, 5⟩]
      "abcdefghij-other" =
      some ⟨"abcdefghijXYZ", none, 1, 2, [⟨"A", [], 0⟩, ⟨"B", [], 0⟩], [], false, false,
          true, 0, 5⟩ :=
  ⟨by decide, by decide,
    (C7_lookup_fallback
      [⟨"abcdefghijXYZ", none, 1, 2, [⟨"A", [], 0⟩, ⟨"B", [], 0⟩], [], false, false,
          true, 0, 5⟩]
      "abcdefghij-other" (by decide) (by decide)).2
      ⟨"abcdefghijXYZ", none, 1, 2, [⟨"A", [], 0⟩, ⟨"B", [], 0⟩], [], false, false,
          true, 0, 5⟩ (by decide)⟩

/-- Counterexample to C7 as stated: an inbound id with no exact `pollId`
match, no exact `originalPollId` match, and whose 10-character fragment
matches zero open polls does not return NotFound — the lookup falls back to
scanning all open polls and resolves to the only open poll. -/
theorem C7_counterexample_prefix_miss_resolves :
    [(⟨"zzzz", none, 1, 2, [⟨"A", [], 0⟩, ⟨"B", [], 0⟩], [], false, false,
        true, 0, 5⟩ : Poll)].find?
      (fun p => p.pollId = "abcdefghij123") = none ∧
    [(⟨"zzzz", none, 1, 2, [⟨"A", [], 0⟩, ⟨"B", [], 0⟩], [], false, false,
        true, 0, 5⟩ : Poll)].find?
      (fun p => p.originalPollId = some "abcdefghij123") = none ∧
    ([(⟨"zzzz", none, 1, 2, [⟨"A", [], 0⟩, ⟨"B", [], 0⟩], [], false, false,
        true, 0, 5⟩ : Poll)].filter (fun p => ¬ p.isClosed)).filter
      (fun p => fragMatches p (("abcdefghij123").toList.take 10).asString) = [] ∧
    resolvePoll
      [⟨"zzzz", none, 1, 2, [⟨"A", [], 0⟩, ⟨"B", [], 0⟩], [], false, false,
          true, 0, 5⟩]
      "abcdefghij123" =
      some ⟨"zzzz", none, 1, 2, [⟨"A", [], 0⟩, ⟨"B", [], 0⟩], [], false, false,
          true, 0, 5⟩ := by
  refine ⟨by decide, by decide, by decide, ?_⟩
  decide

/-- Removing the taken placeholder batch never touches a positive id. -/
theorem removeNewestKeepsPositives (L : List Int) (d : Nat) (id : Int)
    (hid : 0 < id) :
    id ∈ L.filter (fun a => decide (a ∉
        (List.insertionSort (· ≤ ·) (L.filter (fun a => a < 0))).take d)) ↔
      id ∈ L := by
  constructor
  · intro hmem
    exact (List.mem_filter.mp hmem).1
  · intro hmem
    refine List.mem_filter.mpr ⟨hmem, ?_⟩
    simp only [decide_eq_true_eq]
    intro hin
    have h1 : id ∈ List.insertionSort (· ≤ ·) (L.filter (fun a => a < 0)) :=
      List.mem_of_mem_take hin
    have h2 : id ∈ L.filter (fun a => a < 0) :=
      (List.perm_insertionSort _ _).mem_iff.mp h1
    have h3 := (List.mem_filter.mp h2).2
    simp only [decide_eq_true_eq] at h3
    omega

/-- Every id removed by the placeholder-removal filter is bounded above by
every negative id that survives it: the removed ids are the most negative
ones. -/
theorem removeNewestLIFO (L : List Int) (d : Nat) (x y : Int)
    (hx : x ∈ L)
    (hxr : x ∉ L.filter (fun a => decide (a ∉
        (List.insertionSort (· ≤ ·) (L.filter (fun a => a < 0))).take d)))
    (hy : y ∈ L.filter (fun a => decide (a ∉
        (List.insertionSort (· ≤ ·) (L.filter (fun a => a < 0))).take d)))
    (hyneg : y < 0) : x ≤ y := by
  have hxrem : x ∈ (List.insertionSort (· ≤ ·)
      (L.filter (fun a => a < 0))).take d := by
    by_contra hc
    exact hxr (List.mem_filter.mpr ⟨hx, by simpa using hc⟩)
  have hynotrem : y ∉ (List.insertionSort (· ≤ ·)
      (L.filter (fun a => a < 0))).take d := by
    simpa using (List.mem_filter.mp hy).2
  have hynegs : y ∈ L.filter (fun a => a < 0) :=
    List.mem_filter.mpr ⟨(List.mem_filter.mp hy).1, by simpa using hyneg⟩
  have hysorted : y ∈ List.insertionSort (· ≤ ·) (L.filter (fun a => a < 0)) :=
    (List.perm_insertionSort _ _).mem_iff.mpr hynegs
  have hsplit := List.take_append_drop d
    (List.insertionSort (· ≤ ·) (L.filter (fun a => a < 0)))
  rw [← hsplit] at hysorted
  have hydrop : y ∈ (List.insertionSort (· ≤ ·)
      (L.filter (fun a => a < 0))).drop d := by
    rcases List.mem_append.mp hysorted with hcase | hcase
    · exact absurd hcase hynotrem
    · exact hcase
  have hs : List.Sorted (· ≤ ·)
      (List.insertionSort (· ≤ ·) (L.filter (fun a => a < 0))) :=
    List.sorted_insertionSort _ _
  rw [← hsplit, List.Sorted, List.pairwise_append] at hs
  exact hs.2.2 x hxrem y hydrop

/-- A filter that rejects exactly the first `d` elements of a list keeps a
tail of length `length - d`. -/
theorem filter_reject_take_length (q : Int → Bool) (l : List Int) (d : Nat)
    (hf : ∀ a ∈ l.take d, q a = false) (ht : ∀ a ∈ l.drop d, q a = true) :
    (l.filter q).length = l.length - d := by
  conv_lhs => rw [← List.take_append_drop d l]
  rw [List.filter_append, List.filter_eq_nil_iff.mpr (by intro a ha; simp [hf a ha]),
    List.filter_eq_self.mpr ht, List.nil_append, List.length_drop]

/-- Removing the taken placeholder batch shrinks the negative-id population
by exactly the batch size (truncated at zero). -/
theorem removeNewestCount (L : List Int) (d : Nat)
    (hnd : (L.filter (fun a => a < 0)).Nodup) :
    ((L.filter (fun a => decide (a ∉
        (List.insertionSort (· ≤ ·) (L.filter (fun a => a < 0))).take d))).filter
          (fun a => a < 0)).length =
      (L.filter (fun a => a < 0)).length - d := by
  have hswap : (L.filter (fun a => decide (a ∉
      (List.insertionSort (· ≤ ·) (L.filter (fun a => a < 0))).take d))).filter
        (fun a => a < 0) =
      (L.filter (fun a => a < 0)).filter (fun a => decide (a ∉
        (List.insertionSort (· ≤ ·) (L.filter (fun a => a < 0))).take d)) := by
    rw [List.filter_filter, List.filter_filter]
    exact List.filter_congr (fun a _ => Bool.and_comm _ _)
  rw [hswap]
  have hperm : (List.insertionSort (· ≤ ·) (L.filter (fun a => a < 0))).Perm
      (L.filter (fun a => a < 0)) := List.perm_insertionSort _ _
  have hlperm := (hperm.filter (fun a => decide (a ∉
      (List.insertionSort (· ≤ ·) (L.filter (fun a => a < 0))).take d))).length_eq
  rw [← hlperm]
  have hnds : (List.insertionSort (· ≤ ·) (L.filter (fun a => a < 0))).Nodup :=
    hperm.symm.nodup hnd
  have hnds2 : ((List.insertionSort (· ≤ ·) (L.filter (fun a => a < 0))).take d ++
      (List.insertionSort (· ≤ ·) (L.filter (fun a => a < 0))).drop d).Nodup := by
    rw [List.take_append_drop]
    exact hnds
  have hdisj := (List.nodup_append.mp hnds2).2.2
  rw [filter_reject_take_length _ _ d (by intro a ha; simp [ha])
    (by
      intro a ha
      simp only [decide_eq_true_eq]
      intro htk
      exact hdisj htk ha),
    hperm.length_eq]

/-- C1 (amended): when the manual refresh observes a count lower than
`existingVotes` by `d`, the handler removes exactly `d` placeholder ids
chosen as the most negative ones (the most recently allocated), never
removes a positive id, and sets `existingVotes` to the observed count; for
option 0 holding `[-1000001, -1000002, -1000003]` with `existingVotes = 3`,
an observation of `voterCount = 1` removes `-1000002` and `-1000003`,
retains `-1000001`, and sets `existingVotes = 1`. -/
theorem C1_refresh_decrease_removes_most_negative (i : Nat) (o : PollOption)
    (vc : Int) (h : vc < o.existingVotes)
    (hnd : (o.voterIds.filter (fun a => a < 0)).Nodup) :
    (refreshOption i o vc).existingVotes = vc ∧
    (∀ id : Int, 0 < id →
      (id ∈ (refreshOption i o vc).voterIds ↔ id ∈ o.voterIds)) ∧
    (∀ x y : Int, x ∈ o.voterIds → x ∉ (refreshOption i o vc).voterIds →
        y ∈ (refreshOption i o vc).voterIds → y < 0 → x ≤ y) ∧
    ((refreshOption i o vc).voterIds.filter (fun a => a < 0)).length =
      (o.voterIds.filter (fun a => a < 0)).length - (o.existingVotes - vc).toNat := by
  have hr : refreshOption i o vc =
      { o with
        voterIds := o.voterIds.filter (fun id => decide (id ∉
          (List.insertionSort (· ≤ ·) (o.voterIds.filter (fun id => id < 0))).take
            (o.existingVotes - vc).toNat)),
        existingVotes := vc } := by
    unfold refreshOption
    rw [if_neg (ne_of_lt h), if_neg (not_lt.mpr (le_of_lt h))]
  rw [hr]
  refine ⟨rfl, ?_, ?_, ?_⟩
  · intro id hid
    exact removeNewestKeepsPositives o.voterIds (o.existingVotes - vc).toNat id hid
  · intro x y hx hxr hy hyneg
    exact removeNewestLIFO o.voterIds (o.existingVotes - vc).toNat x y hx hxr hy hyneg
  · exact removeNewestCount o.voterIds (o.existingVotes - vc).toNat hnd

/-- Witness for C1's amended statement at the concrete scenario option. -/
theorem C1_refresh_decrease_removes_most_negative_witness :
    (1 : Int) < (⟨"A", [-1000001, -1000002, -1000003], 3⟩ : PollOption).existingVotes ∧
    ((⟨"A", [-1000001, -1000002, -1000003], 3⟩ : PollOption).voterIds.filter
      (fun a => a < 0)).Nodup ∧
    ((refreshOption 0 ⟨"A", [-1000001, -1000002, -1000003], 3⟩ 1).existingVotes = 1 ∧
    (∀ id : Int, 0 < id →
      (id ∈ (refreshOption 0 ⟨"A", [-1000001, -1000002, -1000003], 3⟩ 1).voterIds ↔
        id ∈ (⟨"A", [-1000001, -1000002, -1000003], 3⟩ : PollOption).voterIds)) ∧
    (∀ x y : Int, x ∈ (⟨"A", [-1000001, -1000002, -1000003], 3⟩ : PollOption).voterIds →
        x ∉ (refreshOption 0 ⟨"A", [-1000001, -1000002, -1000003], 3⟩ 1).voterIds →
        y ∈ (refreshOption 0 ⟨"A", [-1000001, -1000002, -1000003], 3⟩ 1).voterIds →
        y < 0 → x ≤ y) ∧
    ((refreshOption 0 ⟨"A", [-1000001, -1000002, -1000003], 3⟩ 1).voterIds.filter
        (fun a => a < 0)).length =
      ((⟨"A", [-1000001, -1000002, -1000003], 3⟩ : PollOption).voterIds.filter
        (fun a => a < 0)).length -
        ((⟨"A", [-1000001, -1000002, -1000003], 3⟩ : PollOption).existingVotes - 1).toNat) :=
  ⟨by decide, by decide,
    C1_refresh_decrease_removes_most_negative 0 ⟨"A", [-1000001, -1000002, -1000003], 3⟩ 1
      (by decide) (by decide)⟩

/-- Counterexample to C1 as stated: at the claim's own example the refresh
handler retains `-1000001` (the placeholder closest to zero) and removes
`-1000002` and `-1000003` — not the other way round. -/
theorem C1_counterexample_retains_closest_to_zero :
    (refreshOption 0 ⟨"A", [-1000001, -1000002, -1000003], 3⟩ 1).voterIds = [-1000001] ∧
    (refreshOption 0 ⟨"A", [-1000001, -1000002, -1000003], 3⟩ 1).existingVotes = 1 ∧
    (-1000003 : Int) ∉
      (refreshOption 0 ⟨"A", [-1000001, -1000002, -1000003], 3⟩ 1).voterIds ∧
    ((refreshPoll
        ⟨"p1", none, 1, 2, [⟨"A", [-1000001, -1000002, -1000003], 3⟩, ⟨"B", [], 0⟩],
          [], false, false, true, 3, 0⟩ 1 [some 1, some 0]).options.getD 0
        ⟨"", [], 0⟩).voterIds = [-1000001] := by
  decide

/-- Removing a user from a mapped option list leaves a filtered voter
list at each index. -/
theorem getD_map_removeUser_voterIds (l : List PollOption) (uid : Int) (k : Nat) :
    ((l.map (removeUser uid)).getD k ⟨"", [], 0⟩).voterIds =
      ((l.getD k ⟨"", [], 0⟩).voterIds).filter (fun a => a ≠ uid) := by
  rw [List.getD_eq_getElem?_getD, List.getD_eq_getElem?_getD, List.getElem?_map]
  cases l[k]? <;> rfl

/-- Removing a user from a mapped option list keeps every `existingVotes`
counter. -/
theorem getD_map_removeUser_existing (l : List PollOption) (uid : Int) (k : Nat) :
    ((l.map (removeUser uid)).getD k ⟨"", [], 0⟩).existingVotes =
      (l.getD k ⟨"", [], 0⟩).existingVotes := by
  rw [List.getD_eq_getElem?_getD, List.getD_eq_getElem?_getD, List.getElem?_map]
  cases l[k]? <;> rfl

/-- Reading back the element just written by `set`. -/
theorem getD_set_self_opt (l : List PollOption) (j : Nat) (o : PollOption)
    (hj : j < l.length) : (l.set j o).getD j ⟨"", [], 0⟩ = o := by
  rw [List.getD_eq_getElem?_getD, List.getElem?_set]
  simp [hj]

/-- Reading any other element after `set`. -/
theorem getD_set_ne_opt (l : List PollOption) (j k : Nat) (o : PollOption)
    (h : j ≠ k) : (l.set j o).getD k ⟨"", [], 0⟩ = l.getD k ⟨"", [], 0⟩ := by
  rw [List.getD_eq_getElem?_getD, List.getD_eq_getElem?_getD, List.getElem?_set]
  simp [h]

/-- The single-choice clearing step keeps every `existingVotes` counter. -/
theorem clearUserIfSingle_existing (p : Poll) (uid : Int) (k : Nat) :
    ((clearUserIfSingle p uid).options.getD k ⟨"", [], 0⟩).existingVotes =
      (p.options.getD k ⟨"", [], 0⟩).existingVotes := by
  unfold clearUserIfSingle
  split
  · exact getD_map_removeUser_existing _ _ _
  · rfl

/-- The single-choice clearing step keeps the option count. -/
theorem clearUserIfSingle_length (p : Poll) (uid : Int) :
    (clearUserIfSingle p uid).options.length = p.options.length := by
  unfold clearUserIfSingle
  split <;> simp

/-- The single-choice clearing step keeps the mention roster. -/
theorem clearUserIfSingle_mentions (p : Poll) (uid : Int) :
    (clearUserIfSingle p uid).mentions = p.mentions := by
  unfold clearUserIfSingle
  split <;> rfl

/-- On a single-choice poll the clearing step filters the user out of every
option's voter list. -/
theorem clearUserIfSingle_voterIds (p : Poll) (uid : Int)
    (hM : p.isMultipleChoice = false) (k : Nat) :
    ((clearUserIfSingle p uid).options.getD k ⟨"", [], 0⟩).voterIds =
      ((p.options.getD k ⟨"", [], 0⟩).voterIds).filter (fun a => a ≠ uid) := by
  unfold clearUserIfSingle
  rw [if_pos (by simp [hM])]
  exact getD_map_removeUser_voterIds _ _ _

/-- The add-if-absent step keeps the option count. -/
theorem pushVote_length (p1 : Poll) (uid : Int) (j : Nat) :
    (pushVote p1 uid j).options.length = p1.options.length := by
  unfold pushVote
  dsimp only
  split
  · rfl
  · simp [List.length_set]

/-- The add-if-absent step keeps the mention roster. -/
theorem pushVote_mentions (p1 : Poll) (uid : Int) (j : Nat) :
    (pushVote p1 uid j).mentions = p1.mentions := by
  unfold pushVote
  dsimp only
  split <;> rfl

/-- The add-if-absent step never lowers any option's `existingVotes`. -/
theorem pushVote_existing_mono (p1 : Poll) (uid : Int) (j k : Nat) :
    (p1.options.getD k ⟨"", [], 0⟩).existingVotes ≤
      ((pushVote p1 uid j).options.getD k ⟨"", [], 0⟩).existingVotes := by
  unfold pushVote
  dsimp only
  split
  · exact le_refl _
  · by_cases hj : j < p1.options.length
    · by_cases hk : j = k
      · subst hk
        rw [getD_set_self_opt _ _ _ hj]
        split
        · rename_i hlt
          exact le_of_lt hlt
        · exact le_refl _
      · rw [getD_set_ne_opt _ _ _ _ hk]
    · rw [List.set_eq_of_length_le (le_of_not_lt hj)]

/-- After the add-if-absent step actually appends, the touched option's
`existingVotes` is at least its positive-id count. -/
theorem pushVote_posCount_le (p1 : Poll) (uid : Int) (j : Nat)
    (hj : j < p1.options.length)
    (hnm : uid ∉ (p1.options.getD j ⟨"", [], 0⟩).voterIds) :
    ((((pushVote p1 uid j).options.getD j ⟨"", [], 0⟩).voterIds.filter
        (fun id => 0 < id)).length : Int) ≤
      ((pushVote p1 uid j).options.getD j ⟨"", [], 0⟩).existingVotes := by
  unfold pushVote
  dsimp only
  rw [if_neg hnm, getD_set_self_opt _ _ _ hj]
  split
  · exact le_refl _
  · rename_i hge
    exact le_of_not_lt hge

/-- The voter list of the pushed option: the user id is appended. -/
theorem pushVote_voterIds_self (p1 : Poll) (uid : Int) (j : Nat)
    (hj : j < p1.options.length)
    (hnm : uid ∉ (p1.options.getD j ⟨"", [], 0⟩).voterIds) :
    ((pushVote p1 uid j).options.getD j ⟨"", [], 0⟩).voterIds =
      (p1.options.getD j ⟨"", [], 0⟩).voterIds ++ [uid] := by
  unfold pushVote
  dsimp only
  rw [if_neg hnm, getD_set_self_opt _ _ _ hj]
  split <;> rfl

/-- The voter list of every other option is untouched by the add step. -/
theorem pushVote_voterIds_other (p1 : Poll) (uid : Int) (j k : Nat) (hk : j ≠ k) :
    ((pushVote p1 uid j).options.getD k ⟨"", [], 0⟩).voterIds =
      (p1.options.getD k ⟨"", [], 0⟩).voterIds := by
  unfold pushVote
  dsimp only
  split
  · rfl
  · rw [getD_set_ne_opt _ _ _ _ hk]

/-- One loop iteration of vote recording never lowers any option's
`existingVotes`. -/
theorem addVoteAt_existing_mono (p : Poll) (uid : Int) (j k : Nat) :
    (p.options.getD k ⟨"", [], 0⟩).existingVotes ≤
      ((addVoteAt p uid j).options.getD k ⟨"", [], 0⟩).existingVotes := by
  unfold addVoteAt
  split
  · calc (p.options.getD k ⟨"", [], 0⟩).existingVotes
        = ((clearUserIfSingle p uid).options.getD k ⟨"", [], 0⟩).existingVotes :=
          (clearUserIfSingle_existing p uid k).symm
      _ ≤ _ := pushVote_existing_mono _ uid j k
  · exact le_refl _

/-- One loop iteration of vote recording keeps the mention roster. -/
theorem addVoteAt_mentions (p : Poll) (uid : Int) (j : Nat) :
    (addVoteAt p uid j).mentions = p.mentions := by
  unfold addVoteAt
  split
  · rw [pushVote_mentions, clearUserIfSingle_mentions]
  · rfl

/-- Folding the vote-recording loop never lowers any option's
`existingVotes`. -/
theorem foldl_addVoteAt_existing_mono (ids : List Nat) : ∀ (p : Poll) (uid : Int)
    (k : Nat), (p.options.getD k ⟨"", [], 0⟩).existingVotes ≤
      ((ids.foldl (fun q j => addVoteAt q uid j) p).options.getD k
        ⟨"", [], 0⟩).existingVotes := by
  induction ids with
  | nil => intro p uid k; exact le_refl _
  | cons j rest ih =>
      intro p uid k
      exact le_trans (addVoteAt_existing_mono p uid j k) (ih _ uid k)

/-- On a non-empty selected-index list, the handler's options are those of
the vote-recording fold. -/
theorem handlePollAnswer_options_of_ne_nil (p : Poll) (u : VoteUser)
    (ids : List Nat) (hC : p.isClosed = false) (hne : ids ≠ []) :
    (handlePollAnswer p u ids).options =
      (ids.foldl (fun q j => addVoteAt q u.id j) p).options := by
  unfold handlePollAnswer
  rw [if_neg (by simp [hC])]
  dsimp only
  rw [if_neg (by simp [hne])]

/-- The retraction branch lowers `existingVotes` to the remaining count of
positive ids when the user had voted and that count is smaller. -/
theorem retractOption_lowers (uid : Int) (o : PollOption)
    (hmem : uid ∈ o.voterIds)
    (hlow : (((o.voterIds.filter (fun id => id ≠ uid)).filter
        (fun id => 0 < id)).length : Int) < o.existingVotes) :
    (retractOption uid o).existingVotes =
      ((o.voterIds.filter (fun id => id ≠ uid)).filter
        (fun id => 0 < id)).length := by
  unfold retractOption
  dsimp only
  rw [if_pos hmem]
  split
  · rfl
  · rename_i hge
    exact absurd hlow hge

/-- C4 (amended): a named-vote addition event never lowers any option's
`existingVotes`, and on a single-choice addition the chosen option ends
with `existingVotes` at least its positive-id count (raised when the count
exceeded it); but an empty-indices retraction does lower `existingVotes`:
when the retracting user was on an option and the remaining positive-id
count is below `existingVotes`, it is set to that count. -/
theorem C4_existing_votes_ratchet (p : Poll) (u : VoteUser) (ids : List Nat)
    (hC : p.isClosed = false) (hne : ids ≠ []) :
    (∀ k : Nat, (p.options.getD k ⟨"", [], 0⟩).existingVotes ≤
        ((handlePollAnswer p u ids).options.getD k ⟨"", [], 0⟩).existingVotes) ∧
    (∀ j : Nat, ids = [j] → j < p.options.length → p.isMultipleChoice = false →
      ((((handlePollAnswer p u ids).options.getD j ⟨"", [], 0⟩).voterIds.filter
          (fun id => 0 < id)).length : Int) ≤
        ((handlePollAnswer p u ids).options.getD j ⟨"", [], 0⟩).existingVotes) ∧
    (∀ (o : PollOption) (uid : Int), uid ∈ o.voterIds →
      (((o.voterIds.filter (fun id => id ≠ uid)).filter
          (fun id => 0 < id)).length : Int) < o.existingVotes →
      (retractOption uid o).existingVotes =
        ((o.voterIds.filter (fun id => id ≠ uid)).filter
          (fun id => 0 < id)).length) := by
  refine ⟨?_, ?_, ?_⟩
  · intro k
    rw [handlePollAnswer_options_of_ne_nil p u ids hC hne]
    exact foldl_addVoteAt_existing_mono ids p u.id k
  · intro j hids hj hM
    subst hids
    rw [handlePollAnswer_options_of_ne_nil p u [j] hC hne]
    show ((((addVoteAt p u.id j).options.getD j ⟨"", [], 0⟩).voterIds.filter
        (fun id => 0 < id)).length : Int) ≤
      ((addVoteAt p u.id j).options.getD j ⟨"", [], 0⟩).existingVotes
    unfold addVoteAt
    rw [if_pos hj]
    have hj1 : j < (clearUserIfSingle p u.id).options.length := by
      rw [clearUserIfSingle_length]
      exact hj
    refine pushVote_posCount_le _ u.id j hj1 ?_
    intro hmem
    rw [clearUserIfSingle_voterIds p u.id hM j] at hmem
    have := (List.mem_filter.mp hmem).2
    simp at this
  · intro o uid hmem hlow
    exact retractOption_lowers uid o hmem hlow

/-- Witness for C4's amended statement at a concrete single-choice vote. -/
theorem C4_existing_votes_ratchet_witness :
    (⟨"p1", none, 1, 2, [⟨"A", [10], 1⟩, ⟨"B", [-2000001], 1⟩], [], false, false,
        true, 2, 0⟩ : Poll).isClosed = false ∧
    ([1] : List Nat) ≠ [] ∧
    (∀ k : Nat,
      ((⟨"p1", none, 1, 2, [⟨"A", [10], 1⟩, ⟨"B", [-2000001], 1⟩], [], false, false,
          true, 2, 0⟩ : Poll).options.getD k ⟨"", [], 0⟩).existingVotes ≤
        ((handlePollAnswer
            ⟨"p1", none, 1, 2, [⟨"A", [10], 1⟩, ⟨"B", [-2000001], 1⟩], [], false, false,
              true, 2, 0⟩ ⟨555, none, none, none⟩ [1]).options.getD k
          ⟨"", [], 0⟩).existingVotes) :=
  ⟨rfl, by decide,
    (C4_existing_votes_ratchet
      ⟨"p1", none, 1, 2, [⟨"A", [10], 1⟩, ⟨"B", [-2000001], 1⟩], [], false, false,
        true, 2, 0⟩ ⟨555, none, none, none⟩ [1] rfl (by decide)).1⟩

/-- Counterexample to C4 as stated: an empty-indices retraction — a
named-vote event — lowers option 0's `existingVotes` from 2 to 0 (the
remaining positive-id count), even though a placeholder survives. -/
theorem C4_counterexample_retraction_lowers :
    ((handlePollAnswer
        ⟨"p1", none, 1, 2, [⟨"A", [555, -1000001], 2⟩, ⟨"B", [], 0⟩], [], false, false,
          true, 2, 0⟩ ⟨555, none, none, none⟩ []).options.getD 0
      ⟨"", [], 0⟩).existingVotes = 0 ∧
    ((⟨"p1", none, 1, 2, [⟨"A", [555, -1000001], 2⟩, ⟨"B", [], 0⟩], [], false, false,
        true, 2, 0⟩ : Poll).options.getD 0 ⟨"", [], 0⟩).existingVotes = 2 ∧
    ((handlePollAnswer
        ⟨"p1", none, 1, 2, [⟨"A", [555, -1000001], 2⟩, ⟨"B", [], 0⟩], [], false, false,
          true, 2, 0⟩ ⟨555, none, none, none⟩ []).options.getD 0
      ⟨"", [], 0⟩).voterIds = [-1000001] := by
  decide

/-- One loop iteration of vote recording keeps the option count. -/
theorem addVoteAt_length (p : Poll) (uid : Int) (j : Nat) :
    (addVoteAt p uid j).options.length = p.options.length := by
  unfold addVoteAt
  split
  · rw [pushVote_length, clearUserIfSingle_length]
  · rfl

/-- On a non-empty selected-index list, the handler's mention roster is the
fold's roster passed through `updateMentions` with `voted = true`. -/
theorem handlePollAnswer_mentions_of_ne_nil (p : Poll) (u : VoteUser)
    (ids : List Nat) (hC : p.isClosed = false) (hne : ids ≠ []) :
    (handlePollAnswer p u ids).mentions =
      updateMentions ((ids.foldl (fun q j => addVoteAt q u.id j) p).mentions) u
        true := by
  unfold handlePollAnswer
  rw [if_neg (by simp [hC])]
  dsimp only
  rw [if_neg (by simp [hne])]
  congr 1
  simpa using hne

/-- When some mention matches the voting user, the roster update marks the
first matching mention as having voted — and it still matches. -/
theorem updateMentions_marks_first (ms : List Mention) (u : VoteUser)
    (h : ∃ m ∈ ms, mentionMatches m u = true) :
    ∃ m ∈ updateMentions ms u true,
      m.voted = true ∧ mentionMatches m u = true := by
  induction ms with
  | nil => simp at h
  | cons m rest ih =>
      unfold updateMentions
      by_cases hm : mentionMatches m u = true
      · rw [if_pos hm]
        dsimp only
        refine ⟨_, List.mem_cons_self _ _, rfl, ?_⟩
        by_cases hid : m.userId = none
        · rw [if_pos hid]
          simp [mentionMatches]
        · rw [if_neg hid]
          simpa [mentionMatches] using hm
      · rw [if_neg hm]
        rcases h with ⟨m0, hm0, hmatch⟩
        rcases List.mem_cons.mp hm0 with rfl | hmem
        · exact absurd hmatch hm
        · rcases ih ⟨m0, hmem, hmatch⟩ with ⟨m1, hm1, hv, hmt⟩
          exact ⟨m1, List.mem_cons_of_mem _ hm1, hv, hmt⟩

/-- C8: a named vote for index `j` on an open single-choice poll removes
the voter's positive id from every other option (placeholders and other
users untouched), appends it to option `j` where it then occurs exactly
once, preserves every negative id everywhere, and marks the first matching
mention as having voted. -/
theorem C8_single_choice_named_vote (p : Poll) (u : VoteUser) (j : Nat)
    (hC : p.isClosed = false) (hM : p.isMultipleChoice = false)
    (hU : 0 < u.id) (hj : j < p.options.length) :
    (∀ k : Nat, k ≠ j →
      ((handlePollAnswer p u [j]).options.getD k ⟨"", [], 0⟩).voterIds =
        ((p.options.getD k ⟨"", [], 0⟩).voterIds).filter (fun a => a ≠ u.id)) ∧
    ((handlePollAnswer p u [j]).options.getD j ⟨"", [], 0⟩).voterIds =
      ((p.options.getD j ⟨"", [], 0⟩).voterIds).filter (fun a => a ≠ u.id) ++
        [u.id] ∧
    ((handlePollAnswer p u [j]).options.getD j ⟨"", [], 0⟩).voterIds.count u.id =
      1 ∧
    (∀ (k : Nat) (x : Int), x < 0 →
      (x ∈ ((handlePollAnswer p u [j]).options.getD k ⟨"", [], 0⟩).voterIds ↔
        x ∈ (p.options.getD k ⟨"", [], 0⟩).voterIds)) ∧
    ((∃ m ∈ p.mentions, mentionMatches m u = true) →
      ∃ m ∈ (handlePollAnswer p u [j]).mentions,
        m.voted = true ∧ mentionMatches m u = true) := by
  have hne : ([j] : List Nat) ≠ [] := by simp
  have hopts : (handlePollAnswer p u [j]).options =
      (pushVote (clearUserIfSingle p u.id) u.id j).options := by
    rw [handlePollAnswer_options_of_ne_nil p u [j] hC hne]
    show (addVoteAt p u.id j).options = _
    unfold addVoteAt
    rw [if_pos hj]
  have hj1 : j < (clearUserIfSingle p u.id).options.length := by
    rw [clearUserIfSingle_length]
    exact hj
  have hnm : u.id ∉ ((clearUserIfSingle p u.id).options.getD j
      ⟨"", [], 0⟩).voterIds := by
    intro hmem
    rw [clearUserIfSingle_voterIds p u.id hM j] at hmem
    have := (List.mem_filter.mp hmem).2
    simp at this
  have hA : ∀ k : Nat, k ≠ j →
      ((handlePollAnswer p u [j]).options.getD k ⟨"", [], 0⟩).voterIds =
        ((p.options.getD k ⟨"", [], 0⟩).voterIds).filter (fun a => a ≠ u.id) := by
    intro k hk
    rw [hopts, pushVote_voterIds_other _ _ _ _ (Ne.symm hk),
      clearUserIfSingle_voterIds p u.id hM k]
  have hB : ((handlePollAnswer p u [j]).options.getD j ⟨"", [], 0⟩).voterIds =
      ((p.options.getD j ⟨"", [], 0⟩).voterIds).filter (fun a => a ≠ u.id) ++
        [u.id] := by
    rw [hopts, pushVote_voterIds_self _ _ _ hj1 hnm,
      clearUserIfSingle_voterIds p u.id hM j]
  refine ⟨hA, hB, ?_, ?_, ?_⟩
  · rw [hB, List.count_append]
    have h0 : (((p.options.getD j ⟨"", [], 0⟩).voterIds).filter
        (fun a => a ≠ u.id)).count u.id = 0 := by
      rw [List.count_eq_zero]
      intro hmem
      have := (List.mem_filter.mp hmem).2
      simp at this
    rw [h0]
    simp [List.count_singleton]
  · intro k x hx
    by_cases hk : k = j
    · subst hk
      rw [hB]
      constructor
      · intro hmem
        rcases List.mem_append.mp hmem with hmem | hmem
        · exact (List.mem_filter.mp hmem).1
        · simp at hmem
          omega
      · intro hmem
        refine List.mem_append.mpr (Or.inl (List.mem_filter.mpr ⟨hmem, ?_⟩))
        simp
        omega
    · rw [hA k hk]
      constructor
      · intro hmem
        exact (List.mem_filter.mp hmem).1
      · intro hmem
        refine List.mem_filter.mpr ⟨hmem, ?_⟩
        simp
        omega
  · intro hex
    have hment : (handlePollAnswer p u [j]).mentions =
        updateMentions p.mentions u true := by
      rw [handlePollAnswer_mentions_of_ne_nil p u [j] hC hne]
      have hfold : (List.foldl (fun q j' => addVoteAt q u.id j') p [j]).mentions =
          p.mentions := addVoteAt_mentions p u.id j
      rw [hfold]
    rw [hment]
    exact updateMentions_marks_first p.mentions u hex

/-- Witness for C8 at the spec scenario: user 555, previously on option 0,
votes for option 1 of a single-choice poll with a matching mention. -/
theorem C8_single_choice_named_vote_witness :
    (⟨"p1", none, 1, 2, [⟨"A", [555], 1⟩, ⟨"B", [], 0⟩],
        [⟨none, some "bob", none, none, false⟩], false, false, true, 1, 0⟩ :
      Poll).isClosed = false ∧
    (⟨"p1", none, 1, 2, [⟨"A", [555], 1⟩, ⟨"B", [], 0⟩],
        [⟨none, some "bob", none, none, false⟩], false, false, true, 1, 0⟩ :
      Poll).isMultipleChoice = false ∧
    (0 : Int) < (555 : Int) ∧
    1 < (⟨"p1", none, 1, 2, [⟨"A", [555], 1⟩, ⟨"B", [], 0⟩],
        [⟨none, some "bob", none, none, false⟩], false, false, true, 1, 0⟩ :
      Poll).options.length ∧
    ((handlePollAnswer
        ⟨"p1", none, 1, 2, [⟨"A", [555], 1⟩, ⟨"B", [], 0⟩],
          [⟨none, some "bob", none, none, false⟩], false, false, true, 1, 0⟩
        ⟨555, some "bob", some "Bob", none⟩ [1]).options.getD 0
      ⟨"", [], 0⟩).voterIds = [] ∧
    ((handlePollAnswer
        ⟨"p1", none, 1, 2, [⟨"A", [555], 1⟩, ⟨"B", [], 0⟩],
          [⟨none, some "bob", none, none, false⟩], false, false, true, 1, 0⟩
        ⟨555, some "bob", some "Bob", none⟩ [1]).options.getD 1
      ⟨"", [], 0⟩).voterIds = [555] ∧
    (∃ m ∈ (handlePollAnswer
        ⟨"p1", none, 1, 2, [⟨"A", [555], 1⟩, ⟨"B", [], 0⟩],
          [⟨none, some "bob", none, none, false⟩], false, false, true, 1, 0⟩
        ⟨555, some "bob", some "Bob", none⟩ [1]).mentions,
      m.voted = true ∧ mentionMatches m ⟨555, some "bob", some "Bob", none⟩ = true) := by
  refine ⟨rfl, rfl, by decide, by decide, by decide, by decide, ?_⟩
  exact (C8_single_choice_named_vote
    ⟨"p1", none, 1, 2, [⟨"A", [555], 1⟩, ⟨"B", [], 0⟩],
      [⟨none, some "bob", none, none, false⟩], false, false, true, 1, 0⟩
    ⟨555, some "bob", some "Bob", none⟩ 1 rfl rfl (by decide) (by decide)).2.2.2.2
    ⟨⟨none, some "bob", none, none, false⟩, by decide, by decide⟩

/-- The no-duplicate-named-vote invariant: in every option, every positive
id occurs at most once in `voterIds`. -/
def noDupPos (p : Poll) : Prop :=
  ∀ o ∈ p.options, ∀ v : Int, 0 < v → o.voterIds.count v ≤ 1

/-- An element read with `getD` inside bounds is a member. -/
theorem getD_mem_opt (l : List PollOption) (j : Nat) (hj : j < l.length) :
    l.getD j ⟨"", [], 0⟩ ∈ l := by
  rw [List.getD_eq_getElem l _ hj]
  exact l.getElem_mem hj

/-- The single-choice clearing step preserves the invariant. -/
theorem noDupPos_clearUserIfSingle (p : Poll) (uid : Int) (h : noDupPos p) :
    noDupPos (clearUserIfSingle p uid) := by
  unfold clearUserIfSingle
  split
  · intro o ho v hv
    rcases List.mem_map.mp ho with ⟨o0, ho0, rfl⟩
    calc (removeUser uid o0).voterIds.count v
        ≤ o0.voterIds.count v := List.Sublist.count_le (List.filter_sublist _) v
      _ ≤ 1 := h o0 ho0 v hv
  · exact h

/-- The add-if-absent step preserves the invariant: the appended id was
absent, so it ends with exactly one occurrence. -/
theorem noDupPos_pushVote (p1 : Poll) (uid : Int) (j : Nat) (h : noDupPos p1) :
    noDupPos (pushVote p1 uid j) := by
  unfold pushVote
  dsimp only
  split
  · exact h
  · rename_i hnm
    intro o' ho' v hv
    rcases List.mem_or_eq_of_mem_set ho' with hmem | rfl
    · exact h o' hmem v hv
    · have hget : (p1.options.getD j ⟨"", [], 0⟩).voterIds.count v ≤ 1 := by
        by_cases hj : j < p1.options.length
        · exact h _ (getD_mem_opt _ j hj) v hv
        · rw [List.getD_eq_default _ _ (le_of_not_lt hj)]
          simp
      have hcount : ((p1.options.getD j ⟨"", [], 0⟩).voterIds ++ [uid]).count v ≤
          1 := by
        rw [List.count_append]
        by_cases hvu : v = uid
        · subst hvu
          rw [List.count_eq_zero.mpr hnm]
          simp [List.count_singleton]
        · have h1 : List.count v [uid] = 0 := by
            simp [List.count_singleton]
            omega
          omega
      split
      · exact hcount
      · exact hcount

/-- One vote-recording iteration preserves the invariant. -/
theorem noDupPos_addVoteAt (p : Poll) (uid : Int) (j : Nat) (h : noDupPos p) :
    noDupPos (addVoteAt p uid j) := by
  unfold addVoteAt
  split
  · exact noDupPos_pushVote _ uid j (noDupPos_clearUserIfSingle p uid h)
  · exact h

/-- The whole vote-recording fold preserves the invariant. -/
theorem noDupPos_foldl_addVoteAt (ids : List Nat) : ∀ (p : Poll) (uid : Int),
    noDupPos p → noDupPos (ids.foldl (fun q j => addVoteAt q uid j) p) := by
  induction ids with
  | nil => intro p uid h; exact h
  | cons j rest ih =>
      intro p uid h
      exact ih _ uid (noDupPos_addVoteAt p uid j h)

/-- The full named-vote handler preserves the invariant. -/
theorem noDupPos_handlePollAnswer (p : Poll) (u : VoteUser) (ids : List Nat)
    (h : noDupPos p) : noDupPos (handlePollAnswer p u ids) := by
  unfold handlePollAnswer
  split
  · exact h
  · dsimp only
    have hP1 : noDupPos (if ids.isEmpty then
        { p with options := p.options.map (retractOption u.id) }
      else ids.foldl (fun q j => addVoteAt q u.id j) p) := by
      split
      · intro o ho v hv
        rcases List.mem_map.mp ho with ⟨o0, ho0, rfl⟩
        have hsub : (retractOption u.id o0).voterIds.Sublist o0.voterIds := by
          unfold retractOption
          dsimp only
          split
          · split
            · exact List.filter_sublist _
            · exact List.filter_sublist _
          · exact List.filter_sublist _
        calc (retractOption u.id o0).voterIds.count v
            ≤ o0.voterIds.count v := List.Sublist.count_le hsub v
          _ ≤ 1 := h o0 ho0 v hv
      · exact noDupPos_foldl_addVoteAt ids p u.id h
    intro o ho v hv
    exact hP1 o ho v hv

/-- C9: starting from any ledger satisfying the no-duplicate invariant,
after any sequence of named-vote events every option's `voterIds` contains
any given positive user id at most once. -/
theorem C9_no_duplicate_named_vote (evs : List (VoteUser × List Nat))
    (p : Poll) (h : noDupPos p) :
    ∀ o ∈ (evs.foldl (fun q e => handlePollAnswer q e.1 e.2) p).options,
      ∀ v : Int, 0 < v → o.voterIds.count v ≤ 1 := by
  induction evs generalizing p with
  | nil => exact h
  | cons e rest ih =>
      exact ih (handlePollAnswer p e.1 e.2) (noDupPos_handlePollAnswer p e.1 e.2 h)

/-- Witness for C9: two successive votes by user 555 for the same option of
a concrete poll leave every positive id unduplicated. -/
theorem C9_no_duplicate_named_vote_witness :
    noDupPos ⟨"p1", none, 1, 2, [⟨"A", [10], 1⟩, ⟨"B", [], 0⟩], [], false, false,
        true, 1, 0⟩ ∧
    (∀ o ∈ ([(⟨555, none, none, none⟩, [1]), (⟨555, none, none, none⟩, [1])] :
          List (VoteUser × List Nat)).foldl
        (fun q e => handlePollAnswer q e.1 e.2)
        (⟨"p1", none, 1, 2, [⟨"A", [10], 1⟩, ⟨"B", [], 0⟩], [], false, false,
          true, 1, 0⟩ : Poll) |>.options,
      ∀ v : Int, 0 < v → o.voterIds.count v ≤ 1) := by
  have hinv : noDupPos ⟨"p1", none, 1, 2, [⟨"A", [10], 1⟩, ⟨"B", [], 0⟩], [],
      false, false, true, 1, 0⟩ := by
    intro o ho v hv
    rcases List.mem_cons.mp ho with rfl | ho2
    · exact le_trans (List.count_le_length v [10]) (by simp)
    · rcases List.mem_cons.mp ho2 with rfl | h3
      · simp
      · simp at h3
  exact ⟨hinv,
    C9_no_duplicate_named_vote [(⟨555, none, none, none⟩, [1]),
      (⟨555, none, none, none⟩, [1])]
      ⟨"p1", none, 1, 2, [⟨"A", [10], 1⟩, ⟨"B", [], 0⟩], [], false, false,
        true, 1, 0⟩ hinv⟩
